import Mathlib

set_option maxRecDepth 100000

/-!
Verification development for the Financial Detective pipeline
(`src/extractor.py`, `src/utils.py`, `src/llm_engine.py`, `src/visualizer.py`).

Python strings are embedded as `List Char` (`Str`); Python `len` counts code
points, which matches `List.length`.  Python dicts (insertion ordered, unique
keys) are embedded as association lists with replace-in-place update.
Duck-typed alias lookups in the source (`id`/`name`, `source`/`entity1`/`from`,
`target`/`entity2`/`to`, `relation`/`type`/`relationship`) are collapsed into
single record fields; a record field holding the empty string models the
Python falsy/absent case, exactly as the source's `... or ''` chains do.
The external `json.loads` is an opaque oracle and is passed in as a parameter
(`P : Str → Bool` for parse-validation, `loads : Str → Option LoadRes` where a
parsed reply's `entities`/`relationships` keys may each be absent).
Loops of the source that can fail to terminate are given explicit fuel; a
`none` result means the fuel ran out, and a result that is `none` for every
fuel is a non-terminating execution of the source.
-/

namespace FinDetective

/-- Python strings as lists of code points. -/
abbrev Str := List Char

/-- Python's whitespace test for `str.strip` / `str.split` (ASCII range). -/
def isSpace (c : Char) : Bool :=
  c = ' ' || c = '\t' || c = '\n' || c = '\r' || c = '\x0b' || c = '\x0c'

/-- Python `str.strip()`: drop leading and trailing whitespace. -/
def pyStrip (s : Str) : Str :=
  ((s.dropWhile isSpace).reverse.dropWhile isSpace).reverse

/-- Python `str.lower()` (ASCII case mapping; the source's inputs are ASCII
except for currency glyphs, which have no case). -/
def lowerStr (s : Str) : Str := s.map Char.toLower

/-- Python `str.upper()` (ASCII case mapping). -/
def upperStr (s : Str) : Str := s.map Char.toUpper

/-- Python `str.split()` with no argument: split on whitespace runs,
dropping empty fields.  `acc` carries the current word reversed. -/
def splitAux : Str → Str → List Str
  | [], acc => if acc = [] then [] else [acc.reverse]
  | c :: rest, acc =>
    if isSpace c then
      if acc = [] then splitAux rest [] else acc.reverse :: splitAux rest []
    else splitAux rest (c :: acc)

/-- Python `str.split()`. -/
def pySplit (s : Str) : List Str := splitAux s []

/-- Python `" ".join(xs)`. -/
def pyJoin (xs : List Str) : Str := List.intercalate ([' ']) xs

/-- One step of Python `str.replace(pat, rep)` scanning left to right,
with fuel bounded by the string length (the scan never rescans `rep`). -/
def replaceAllAux (pat rep : Str) : Nat → Str → Str
  | 0, s => s
  | _ + 1, [] => []
  | fuel + 1, c :: rest =>
    if pat ≠ [] ∧ pat.isPrefixOf (c :: rest) then
      rep ++ replaceAllAux pat rep fuel ((c :: rest).drop pat.length)
    else
      c :: replaceAllAux pat rep fuel rest

/-- Python `s.replace(pat, rep)` (all occurrences, left to right,
non-overlapping). -/
def replaceAll (pat rep : Str) (s : Str) : Str := replaceAllAux pat rep s.length s

/-- Python `haystack.find(needle, start)` restricted to the suffix: scan of
`rest` (which is `haystack` from absolute index `i`) for `pat`. -/
def findSubAux (pat : Str) : Str → Nat → Option Nat
  | [], i => if pat = [] then some i else none
  | c :: rest, i =>
    if pat.isPrefixOf (c :: rest) then some i else findSubAux pat rest (i + 1)

/-- Python `haystack.find(needle, start)`, returning `none` for `-1`. -/
def findSubFrom (s pat : Str) (start : Nat) : Option Nat :=
  findSubAux pat (s.drop start) start

/-- Python `needle in haystack` (substring containment). -/
def isSubstrOf (pat s : Str) : Bool := (findSubFrom s pat 0).isSome

/-- Python `haystack.find(c, start)` for a single character. -/
def findCharAux (c : Char) : Str → Nat → Option Nat
  | [], _ => none
  | x :: rest, i => if x = c then some i else findCharAux c rest (i + 1)

/-- Python `haystack.find(c, start)` for a single character, `none` for `-1`. -/
def findCharFrom (s : Str) (c : Char) (start : Nat) : Option Nat :=
  findCharAux c (s.drop start) start

/-- Python slice `s[a:b]` for `0 ≤ a ≤ b` (out-of-range bounds clip). -/
def pySlice (s : Str) (a b : Nat) : Str := (s.take b).drop a

/-- The honorific prefixes stripped by `_normalize_name` (source order). -/
def personTitles : List Str :=
  [("shri").toList, ("shri.").toList, ("shree").toList, ("mr.").toList,
   ("mr").toList, ("mrs.").toList, ("mrs").toList, ("ms.").toList,
   ("ms").toList, ("dr.").toList, ("dr").toList, ("prof.").toList,
   ("prof").toList, ("sir").toList, ("madam").toList, ("smt.").toList,
   ("smt").toList]

/-- One title pass of `_normalize_name`: the `title + " "` check runs first
and, on the (possibly updated) string, the `title + "."` check runs second,
each stripping the title and re-stripping whitespace. -/
def stripTitle (t : Str) (s : Str) : Str :=
  let s1 := if (t ++ [' ']).isPrefixOf s then pyStrip (s.drop t.length) else s
  if (t ++ ['.']).isPrefixOf s1 then pyStrip (s1.drop (t.length + 1)) else s1

/-- The title-stripping loop of `_normalize_name`. -/
def stripTitles (s : Str) : Str := personTitles.foldl (fun acc t => stripTitle t acc) s

/-- The replacement chain of `_normalize_name`: corporate suffixes, then
punctuation, in source order. -/
def replacePairs : List (Str × Str) :=
  [(( " limited").toList, []), ((" ltd").toList, []), ((" ltd.").toList, []),
   ((" industries").toList, []), ((" industry").toList, []),
   ((" corporation").toList, []), ((" corp").toList, []), ((" corp.").toList, []),
   ((" incorporated").toList, []), ((" inc").toList, []), ((" inc.").toList, []),
   ((".").toList, []), ((",").toList, []), (("-").toList, ([' '] : Str)),
   (("_").toList, ([' '] : Str))]

/-- Apply the replacement chain of `_normalize_name`. -/
def applyReplacePairs (s : Str) : Str :=
  replacePairs.foldl (fun acc p => replaceAll p.1 p.2 acc) s

/-- Embedding of `FinancialDetective._normalize_name` (extractor.py 182-212):
strip, lower-case, strip honorific titles, remove corporate suffixes and
punctuation, collapse whitespace. -/
def normalizeName (name : Str) : Str :=
  if name = [] then []
  else
    let n0 := pyStrip name
    let n1 := lowerStr n0
    let n2 := stripTitles n1
    let n3 := applyReplacePairs n2
    pyJoin (pySplit n3)

/-- Python `all(x in ys for x in xs)`; also set subset, since Python set
subset of sets built from these lists is extensionally the same test. -/
def subsetB (xs ys : List Str) : Bool := xs.all fun x => decide (x ∈ ys)

/-- Python `set(xs) == set(ys)` as mutual containment. -/
def setEqB (xs ys : List Str) : Bool := subsetB xs ys && subsetB ys xs

/-- The filtered core-token list of a normalized name: split on whitespace
and drop single-character tokens (treated as middle initials). -/
def coreOf (n : Str) : List Str := (pySplit n).filter fun w => decide (1 < w.length)

/-- Embedding of the body of `FinancialDetective._is_same_entity`
(extractor.py 214-259) on already-normalized names.  The source's sequence
of early-`return True` checks is rendered as a disjunction of the same
checks in the same order (`coreOf n` is the source's `core_words`, and the
full token lists stand for the source's `words1_set`/`words2_set`, whose
subset tests are extensionally list containment). -/
def isSameNorm (n1 n2 : Str) : Bool :=
  decide (n1 = n2) ||
  ((decide (2 ≤ (coreOf n1).length) && decide (2 ≤ (coreOf n2).length)) &&
    (setEqB (coreOf n1) (coreOf n2) ||
      (if (coreOf n1).length ≤ (coreOf n2).length then subsetB (coreOf n1) (coreOf n2)
       else subsetB (coreOf n2) (coreOf n1)))) ||
  ((decide (pySplit n1 ≠ []) && decide (pySplit n2 ≠ [])) &&
    (subsetB (pySplit n1) (pySplit n2) || subsetB (pySplit n2) (pySplit n1))) ||
  (decide (n1.length ≤ 5) && isSubstrOf n1 n2) ||
  (decide (n2.length ≤ 5) && isSubstrOf n2 n1)

/-- Embedding of `FinancialDetective._is_same_entity` (extractor.py 214-259). -/
def isSameEntity (name1 name2 : Str) : Bool :=
  isSameNorm (normalizeName name1) (normalizeName name2)

/-- An entity record `{id, type, metadata}`.  The source reads these from
parsed JSON dicts with `entity.get('id') or entity.get('name')` and
`entity.get('metadata', '') or ''`; absent/falsy fields are the empty
string here, and `type` holds `entity.get('type', 'default')`'s result. -/
structure Entity where
  id : Str
  type : Str
  metadata : Str
deriving DecidableEq

/-- A relationship record `{source, target, relation}` (alias keys
`entity1`/`from` etc. collapsed; absent fields are the empty string). -/
structure Rel where
  source : Str
  target : Str
  relation : Str
deriving DecidableEq

/-- The `{"entities": [...], "relationships": [...]}` graph structure. -/
structure Graph where
  entities : List Entity
  relationships : List Rel
deriving DecidableEq

/-- A parsed oracle reply as seen by `_process_single_chunk`: the
`entities` / `relationships` keys of the loaded JSON dict, each possibly
absent (`none` models a missing key). -/
structure LoadRes where
  entities : Option (List Entity)
  relationships : Option (List Rel)

/-- Python dict lookup on an insertion-ordered association list. -/
def dictGet {α : Type} : List (Str × α) → Str → Option α
  | [], _ => none
  | p :: rest, k => if p.1 = k then some p.2 else dictGet rest k

/-- Python `d[k] = v`: replace in place if the key exists, else append. -/
def dictSet {α : Type} : List (Str × α) → Str → α → List (Str × α)
  | [], k, v => [(k, v)]
  | p :: rest, k, v => if p.1 = k then (k, v) :: rest else p :: dictSet rest k v

/-- Python `del d[k]` (unique keys, so removing every match is the same). -/
def dictDel {α : Type} : List (Str × α) → Str → List (Str × α)
  | [], _ => []
  | p :: rest, k => if p.1 = k then dictDel rest k else p :: dictDel rest k

/-- The linear search of `_deduplicate_entities` over `entity_map.items()`
for the first existing key equivalent to the incoming id. -/
def findMatch (m : List (Str × Entity)) (eid : Str) : Option (Str × Entity) :=
  m.find? fun p => isSameEntity eid p.1

/-- One iteration of the `for entity in entities` loop of
`FinancialDetective._deduplicate_entities` (extractor.py 261-296).
When a duplicate is found, the incoming record replaces the stored one iff
its display name is strictly longer OR its metadata is strictly longer and
non-empty; a strictly longer name additionally rewrites the stored key. -/
def dedupStep (m : List (Str × Entity)) (e : Entity) : List (Str × Entity) :=
  if e.id = [] then m
  else
    match findMatch m e.id with
    | none => dictSet m e.id e
    | some (k, v) =>
      if k.length < e.id.length ∨ (v.metadata.length < e.metadata.length ∧ e.metadata ≠ []) then
        let m1 := dictSet m k e
        if k.length < e.id.length then dictSet (dictDel m1 k) e.id e else m1
      else m

/-- Embedding of `FinancialDetective._deduplicate_entities`
(extractor.py 261-296): fold the incoming records into the map and return
`list(entity_map.values())`. -/
def dedupEntities (entities : List Entity) : List Entity :=
  (entities.foldl dedupStep []).map (·.2)

/-- The financial relation tags of `_validate_and_fix_relationships`. -/
def financialRelations : List Str :=
  [("HAS_REVENUE").toList, ("HAS_PROFIT").toList, ("HAS_ASSET").toList,
   ("HAS_EQUITY").toList, ("HAS_DEBT").toList, ("HAS_EXPORTS").toList,
   ("HAS_CSR_CONTRIBUTION").toList]

/-- Source types that cannot carry a financial relationship. -/
def invalidSourceTypes : List Str :=
  [("Event").toList, ("Date").toList, ("Document").toList, ("Metric").toList]

/-- Target types rejected for financial relationships (note that
`Company` is in this list). -/
def invalidTargetTypes : List Str :=
  [("Person").toList, ("Company").toList, ("Event").toList, ("Date").toList,
   ("Document").toList, ("Location").toList, ("Risk").toList,
   ("Product").toList, ("Framework").toList]

/-- `entity_map.get(name, {}).get('type', 'default')` of the validator. -/
def lookupType (emap : List (Str × Entity)) (name : Str) : Str :=
  match dictGet emap name with
  | some e => e.type
  | none => ("default").toList

/-- The loop's `relation = rel.get('relation') or ... or 'RELATED_TO'`
followed by `relation.strip().upper()`. -/
def relUpperOf (rel : Rel) : Str :=
  upperStr (pyStrip (if rel.relation = [] then ("RELATED_TO").toList else rel.relation))

/-- One iteration of the relationship loop of
`FinancialDetective._validate_and_fix_relationships` (extractor.py 532-625):
`none` models the `continue`-after-removal paths, `some r` the appended
(possibly direction-swapped) relationship.  Types are read from the entity
map before any swap, exactly as the source computes `source_type` /
`target_type` once at the top of the loop body. -/
def validateOne (emap : List (Str × Entity)) (rel : Rel) : Option Rel :=
  if rel.source = [] ∨ rel.target = [] then none
  else
    let sourceType := lookupType emap rel.source
    let targetType := lookupType emap rel.target
    let relUpper := relUpperOf rel
    let afterFinancial : Option Rel :=
      if relUpper ∈ financialRelations then
        if targetType ∈ invalidTargetTypes then none
        else if targetType = ("Company").toList ∧ sourceType = ("Dollar Amount").toList then
          some { rel with source := rel.target, target := rel.source }
        else if sourceType ∈ invalidSourceTypes then none
        else if ¬sourceType = ("Company").toList then none
        else some rel
      else some rel
    match afterFinancial with
    | none => none
    | some rel2 =>
      if relUpper = ("FACES_RISK").toList ∧ ¬sourceType = ("Company").toList then none
      else if relUpper = ("OWNS").toList then
        if ¬sourceType = ("Company").toList then none
        else if ¬targetType = ("Company").toList then none
        else some rel2
      else some rel2

/-- Embedding of `FinancialDetective._validate_and_fix_relationships`
(extractor.py 532-625). -/
def validateAndFixRelationships (rels : List Rel) (emap : List (Str × Entity)) : List Rel :=
  rels.filterMap (validateOne emap)

/-- The default empty record returned by `clean_json_string`. -/
def defaultRecord : Str :=
  ("\x7b\"entities\": [], \"relationships\": []\x7d").toList

/-- The brace-depth scan of `clean_json_string`: from absolute index `i`
(the list argument is the suffix of the scanned string starting there),
increment on every open brace, decrement on every close brace, and return
`i + 1` the moment the count reaches zero; `none` if it never does.  The
count is an `Int` exactly like Python's. -/
def braceScanAux : Str → Nat → Int → Option Nat
  | [], _, _ => none
  | c :: rest, i, depth =>
    if c = '\x7b' then braceScanAux rest (i + 1) (depth + 1)
    else if c = '\x7d' then
      if depth - 1 = 0 then some (i + 1) else braceScanAux rest (i + 1) (depth - 1)
    else braceScanAux rest (i + 1) depth

/-- Scan for the `}` matching the `{` at index `start` (the source's
`brace_count` loop); returns the exclusive end index. -/
def braceScanFrom (s : Str) (start : Nat) : Option Nat :=
  braceScanAux (s.drop start) start 0

/-- Result of the fenced-code-block phase of `clean_json_string`:
either an early `return` of a parse-validated extract, or the (possibly
reassigned) working string for the later phases. -/
inductive FencePhase where
  | done (r : Str)
  | cont (s : Str)

/-- The common tail of both fence branches of `clean_json_string`: find
the closing ``` ``` `` at or after `startContent`, strip the interior,
parse-validate (`P`) and early-return it on success, else reassign the
working string to the interior; with no closing fence the working string
is unchanged. -/
def tryExtract (P : Str → Bool) (s0 : Str) (startContent : Nat) : FencePhase :=
  match findSubFrom s0 (("```").toList) startContent with
  | none => .cont s0
  | some endMarker =>
    let extracted := pyStrip (pySlice s0 startContent endMarker)
    if P extracted then .done extracted else .cont extracted

/-- The markdown-fence phase of `clean_json_string` (utils.py 46-80).
The search for the tagged marker runs over the lower-cased string (its
content slice indexes the original, of equal length); the generic form
searches the original. -/
def fencePhase (P : Str → Bool) (s0 : Str) : FencePhase :=
  if ¬isSubstrOf (("```").toList) s0 then .cont s0
  else
    let lowerS := lowerStr s0
    if isSubstrOf (("```json").toList) lowerS then
      match findSubFrom lowerS (("```json").toList) 0 with
      | none => .cont s0
      | some startMarker => tryExtract P s0 (startMarker + (("```json").toList).length)
    else
      match findSubFrom s0 (("```").toList) 0 with
      | none => .cont s0
      | some firstTick => tryExtract P s0 (firstTick + 3)

/-- The first-brace phase of `clean_json_string` (utils.py 82-104):
find the first `{`, find its matching `}`, and return the stripped
candidate when it parse-validates; `none` means fall through. -/
def firstBracePhase (P : Str → Bool) (s : Str) : Option Str :=
  match findCharFrom s '\x7b' 0 with
  | none => none
  | some startIdx =>
    match braceScanFrom s startIdx with
    | none => none
    | some endIdx =>
      let candidate := pyStrip (pySlice s startIdx endIdx)
      if P candidate then some candidate else none

/-- The `while True` fallback scan of `clean_json_string` (utils.py 106-135)
with explicit fuel.  Each pass finds the next `{` at or after
`searchStart`; a balanced candidate is parse-validated and collected and
the search resumes after it, while an unbalanced `{` leaves
`search_start = end_idx = start_idx` unchanged — the source then rescans
the same position forever, which here exhausts any fuel (`none`). -/
def fallbackLoop (P : Str → Bool) (s : Str) : Nat → Nat → List Str → Option (List Str)
  | 0, _, _ => none
  | fuel + 1, searchStart, acc =>
    match findCharFrom s '\x7b' searchStart with
    | none => some acc
    | some startIdx =>
      match braceScanFrom s startIdx with
      | some endIdx =>
        let candidate := pyStrip (pySlice s startIdx endIdx)
        fallbackLoop P s fuel endIdx (if P candidate then acc ++ [candidate] else acc)
      | none => fallbackLoop P s fuel startIdx acc

/-- Python `max(candidates, key=len)`: first candidate of maximal length. -/
def maxByLen : List Str → Option Str
  | [] => none
  | x :: xs => some (xs.foldl (fun best c => if best.length < c.length then c else best) x)

/-- Embedding of `clean_json_string` (utils.py 37-144), parameterized by
the `json.loads` validation test `P` and by fuel for the fallback scan;
`none` models the source failing to return (fuel exhausted on a loop
that makes no progress). -/
def cleanJsonString (P : Str → Bool) (fuel : Nat) (s0 : Str) : Option Str :=
  if s0 = [] then some defaultRecord
  else
    match fencePhase P s0 with
    | .done r => some r
    | .cont s =>
      match firstBracePhase P s with
      | some r => some r
      | none =>
        match fallbackLoop P s fuel 0 [] with
        | none => none
        | some candidates =>
          match maxByLen candidates with
          | some best => some best
          | none => some defaultRecord

/-- Embedding of `FinancialDetective._chunk_text` (extractor.py 162-180)
by window spans: window `k` covers `[start, min (start + chunkSize) n)` of a
text of length `n`, and the next start is `start + (chunkSize - overlap)`
(the loop has no guard against a non-positive step, so fuel models the
possibly endless `while`; `none` means the loop has not finished). -/
def chunkRangesFuel (chunkSize overlap n : Nat) : Nat → Nat → Option (List (Nat × Nat))
  | 0, _ => none
  | fuel + 1, start =>
    if start < n then
      match chunkRangesFuel chunkSize overlap n fuel (start + (chunkSize - overlap)) with
      | none => none
      | some rest => some ((start, min (start + chunkSize) n) :: rest)
    else some []

/-- The chunk strings of `_chunk_text`: `text[start:end]` per window. -/
def chunkTextFuel (text : Str) (chunkSize overlap fuel : Nat) : Option (List Str) :=
  (chunkRangesFuel chunkSize overlap text.length fuel 0).map
    (List.map fun p => pySlice text p.1 p.2)

/-- Python exceptions crossing the embedded boundaries. -/
inductive PyErr where
  | oracleError
  | attributeError
deriving DecidableEq

/-- Embedding of `LLMEngine.generate_extraction` (llm_engine.py 15-38):
the context text is truncated to 12000 characters and handed to the
external oracle, whose failure is re-raised. -/
def generateExtraction (oracle : Str → Except PyErr Str) (contextText : Str) :
    Except PyErr Str :=
  oracle (contextText.take 12000)

/-- Embedding of `FinancialDetective._process_single_chunk`
(extractor.py 627-645): call the oracle, clean its reply, `json.loads` it
(the `loads` parameter; `none` models `JSONDecodeError`), check the two
required keys, and fall back to the empty graph on parse failure or
missing keys.  The outer `none` means `clean_json_string` never returned. -/
def processSingleChunk (oracle : Str → Except PyErr Str)
    (loads : Str → Option LoadRes) (fuel : Nat) (chunk : Str) :
    Option (Except PyErr Graph) :=
  match generateExtraction oracle chunk with
  | .error e => some (.error e)
  | .ok rawResponse =>
    match cleanJsonString (fun s => (loads s).isSome) fuel rawResponse with
    | none => none
    | some cleaned =>
      match loads cleaned with
      | none => some (.ok ⟨[], []⟩)
      | some data =>
        match data.entities, data.relationships with
        | some es, some rs => some (.ok ⟨es, rs⟩)
        | _, _ => some (.ok ⟨[], []⟩)

/-- Embedding of the `Config.CHUNK_SIZE` read at extractor.py 392:
`config.py` defines no such attribute, so the read raises
`AttributeError`. -/
def configChunkSize : Except PyErr Nat := .error .attributeError

/-- Embedding of the `Config.CHUNK_OVERLAP` read at extractor.py 393:
likewise undefined in `config.py`. -/
def configChunkOverlap : Except PyErr Nat := .error .attributeError

/-- Embedding of `FinancialDetective.analyze` (extractor.py 386-478).
The body reads `Config.CHUNK_SIZE` and `Config.CHUNK_OVERLAP` at lines
392-393, before the `len(raw_text) <= 10000` test at line 396, and
`config.py` defines neither attribute — so every call raises
`AttributeError` there, before any oracle call, and the rest of the body
is unreachable in the shipped program.  That unreachable remainder would
hand a text of at most 10000 characters to `_process_single_chunk`
directly (line 398), with no exception handling around it; the chunked
loop of lines 400-478, also unreachable, is left unmodelled (`none`). -/
def analyze (oracle : Str → Except PyErr Str) (loads : Str → Option LoadRes)
    (fuel : Nat) (rawText : Str) : Option (Except PyErr Graph) :=
  match configChunkSize, configChunkOverlap with
  | .error e, _ => some (.error e)
  | .ok _, .error e => some (.error e)
  | .ok _, .ok _ =>
    if rawText.length ≤ 10000 then processSingleChunk oracle loads fuel rawText
    else none

/-- The node-adding entity loop of `GraphVisualizer` (visualizer.py 30-42):
nodes keyed by display id carrying the declared type (metadata attribute
omitted — only id and type matter to edge endpoint resolution). -/
def buildNodes (entities : List Entity) : List (Str × Str) :=
  entities.foldl (fun g e => if e.id = [] then g else dictSet g e.id e.type) []

/-- One iteration of the edge loop of `GraphVisualizer` (visualizer.py
49-72): skip an edge with a missing endpoint; synthesize any endpoint that
is not yet a node with type `"default"`; then record the edge. -/
def visStep (st : List (Str × Str) × List (Str × Str × Str)) (rel : Rel) :
    List (Str × Str) × List (Str × Str × Str) :=
  let relation := if rel.relation = [] then ("RELATED_TO").toList else rel.relation
  if rel.source = [] ∨ rel.target = [] then st
  else
    let nodes1 := if (dictGet st.1 rel.source).isSome then st.1
                  else dictSet st.1 rel.source (("default").toList)
    let nodes2 := if (dictGet nodes1 rel.target).isSome then nodes1
                  else dictSet nodes1 rel.target (("default").toList)
    (nodes2, st.2 ++ [(rel.source, rel.target, relation)])

/-- The graph-construction part of `GraphVisualizer.create_graph`
(visualizer.py 25-72): nodes from the entity list, then edges with
missing endpoints synthesized as `"default"`-typed nodes. -/
def buildVisGraph (data : Graph) : List (Str × Str) × List (Str × Str × Str) :=
  data.relationships.foldl visStep (buildNodes data.entities, [])

/-- Entity map of the spec's relationship-direction-repair scenario:
the monetary amount and the company, with their declared types. -/
def emapScenario : List (Str × Entity) :=
  [(("₹81,309 crore").toList,
    ⟨("₹81,309 crore").toList, ("Dollar Amount").toList, []⟩),
   (("Reliance Industries Limited").toList,
    ⟨("Reliance Industries Limited").toList, ("Company").toList, []⟩)]

/-- The reversed relationship of the spec's direction-repair scenario. -/
def reversedProfitRel : Rel :=
  ⟨("₹81,309 crore").toList, ("Reliance Industries Limited").toList,
   ("HAS_PROFIT").toList⟩

/-- The repaired relationship the spec says the scenario produces. -/
def repairedProfitRel : Rel :=
  ⟨("Reliance Industries Limited").toList, ("₹81,309 crore").toList,
   ("HAS_PROFIT").toList⟩

/-- Entity map exhibiting a `Metric`-typed entity next to a company. -/
def emapMetric : List (Str × Entity) :=
  [(("Reliance Industries Limited").toList,
    ⟨("Reliance Industries Limited").toList, ("Company").toList, []⟩),
   (("5%").toList, ⟨("5%").toList, ("Metric").toList, []⟩)]

/-- A financial relationship whose target is the `Metric`-typed entity. -/
def metricTargetRel : Rel :=
  ⟨("Reliance Industries Limited").toList, ("5%").toList, ("HAS_REVENUE").toList⟩

/-- The name-merge scenario's record carrying non-empty metadata. -/
def mukeshEnt : Entity :=
  ⟨("Mukesh Ambani").toList, ("Person").toList, ("Chairman").toList⟩

/-- The name-merge scenario's record with the longer name and no metadata. -/
def shriEnt : Entity :=
  ⟨("Shri Mukesh D. Ambani").toList, ("Person").toList, []⟩

/-- The mocked oracle reply of the repository's own test
(`tests/test_extraction.py`), as a single JSON line. -/
def mockReply : Str :=
  ("\x7b\"entities\": [\x7b\"id\": \"RIL\", \"type\": \"Company\"\x7d], \"relationships\": [\x7b\"source\": \"RIL\", \"target\": \"10B\", \"relation\": \"REVENUE\"\x7d]\x7d").toList

/-- A concrete `json.loads` oracle consistent with `mockReply`: it parses
exactly that string, to the records the test's JSON denotes. -/
def mockLoads : Str → Option LoadRes := fun s =>
  if s = mockReply then
    some ⟨some [⟨("RIL").toList, ("Company").toList, []⟩],
          some [⟨("RIL").toList, ("10B").toList, ("REVENUE").toList⟩]⟩
  else none

/-- The graph `analyze` returns for the mocked reply. -/
def mockGraph : Graph :=
  ⟨[⟨("RIL").toList, ("Company").toList, []⟩],
   [⟨("RIL").toList, ("10B").toList, ("REVENUE").toList⟩]⟩

/-- C1.  The spec's direction-repair scenario evaluated on the code: the
validator removes the reversed financial relationship instead of swapping
its endpoints, because `'Company'` is in the invalid-target list checked
before the swap branch, making that branch unreachable.  The relationship
`{source: "₹81,309 crore" (Dollar Amount), target: "Reliance Industries
Limited" (Company), relation: "HAS_PROFIT"}` is dropped, not repaired. -/
theorem c1_reversed_financial_edge_dropped_not_swapped :
    validateAndFixRelationships [reversedProfitRel] emapScenario = [] ∧
    validateAndFixRelationships [reversedProfitRel] emapScenario ≠ [repairedProfitRel] := by
  constructor
  · rfl
  · decide

/-- C2's helper: on the one-character string `"{"`, the fallback scan of
`clean_json_string` finds the `{` at index 0, fails to match it, resets
`search_start` to the same index and repeats, for any amount of fuel. -/
theorem fallbackLoop_lone_brace (P : Str → Bool) :
    ∀ (fuel : Nat) (acc : List Str), fallbackLoop P (['\x7b']) fuel 0 acc = none := by
  intro fuel
  induction fuel with
  | zero => intro acc; rfl
  | succ n ih => intro acc; exact ih acc

/-- C2.  `clean_json_string` does not terminate on the input `"{"` (a `{`
with no matching `}`): for every fuel the embedded run is unfinished, so
the source loops forever instead of returning the default record. -/
theorem c2_clean_json_string_diverges_on_lone_open_brace :
    ∀ (P : Str → Bool) (fuel : Nat), cleanJsonString P fuel (['\x7b']) = none := by
  intro P fuel
  have h := fallbackLoop_lone_brace P fuel []
  have key : cleanJsonString P fuel (['\x7b']) =
      (match fallbackLoop P (['\x7b']) fuel 0 [] with
       | none => none
       | some candidates =>
         match maxByLen candidates with
         | some best => some best
         | none => some defaultRecord) := rfl
  rw [key, h]

/-- C3.  For every text (of any length, short texts included) and every
oracle — raising or well-behaved — `analyze` raises `AttributeError` at
the `Config.CHUNK_SIZE` read of extractor.py 392, which runs before the
direct-processing length test and before any oracle call: an exception
escapes `analyze` on every call, and no run ever returns a well-formed
graph, contradicting the claim (and failing the repository's own
`test_analyze_structure`). -/
theorem c3_analyze_always_raises_attribute_error :
    ∀ (oracle : Str → Except PyErr Str) (loads : Str → Option LoadRes)
      (fuel : Nat) (rawText : Str),
      analyze oracle loads fuel rawText = some (.error .attributeError) := by
  intro oracle loads fuel rawText
  rfl

/-- C4.  `_chunk_text` does not terminate when `overlap = chunkSize`: on
the two-character text `"ab"` with `chunk_size = 1`, `overlap = 1` the
start position never advances (`start += chunk_size - overlap` adds 0) and
no guard stops the loop, so every fuel leaves the run unfinished. -/
theorem c4_chunk_text_diverges_when_overlap_equals_chunk_size :
    ∀ fuel : Nat, chunkTextFuel (("ab").toList) 1 1 fuel = none := by
  have base : ∀ fuel : Nat, chunkRangesFuel 1 1 2 fuel 0 = none := by
    intro fuel
    induction fuel with
    | zero => rfl
    | succ n ih =>
      have step : chunkRangesFuel 1 1 2 (n + 1) 0 =
          (match chunkRangesFuel 1 1 2 n 0 with
           | none => none
           | some rest => some ((0, 1) :: rest)) := rfl
      rw [step, ih]
  intro fuel
  simp [chunkTextFuel, base fuel]

/-- C5 counterexample.  Replaying the repository's own mocked test
(`tests/test_extraction.py`): `analyze` raises `AttributeError` on that
input and returns no graph at all (first conjunct), so no stub is ever
synthesized; and the value `analyze` hands back unmodified on its direct
path once control reaches extractor.py 398 — the `_process_single_chunk`
result — carries the relationship `RIL -> REVENUE -> 10B` although
`"10B"` was never emitted as an entity: no entity of that graph resolves
to it under the identity resolver and no stub of any type (in particular
none typed `Unknown`) is present, so a relationship references a missing
node record. -/
theorem c5_no_stub_synthesis_dangling_endpoint :
    analyze (fun _ => .ok mockReply) mockLoads 1 (("Some raw text").toList)
        = some (.error .attributeError) ∧
    processSingleChunk (fun _ => .ok mockReply) mockLoads 1 (("Some raw text").toList)
        = some (.ok mockGraph) ∧
    (mockGraph.relationships.all fun r =>
        mockGraph.entities.all fun e => !(isSameEntity e.id r.target)) = true ∧
    (mockGraph.entities.all fun e => !(e.type = ("Unknown").toList)) = true := by
  refine ⟨rfl, rfl, ?_, ?_⟩ <;> decide

/-- C6 counterexample.  A financial relationship whose target entity is
typed `Metric` survives validation unchanged, so after validation not
every financial relationship has a `Dollar Amount` (MonetaryAmount)
target. -/
theorem c6_metric_target_survives_validation :
    validateAndFixRelationships [metricTargetRel] emapMetric = [metricTargetRel] ∧
    lookupType emapMetric metricTargetRel.target = ("Metric").toList ∧
    ("Metric").toList ≠ ("Dollar Amount").toList := by
  refine ⟨rfl, rfl, ?_⟩
  decide

/-- C7 counterexample.  Merging the scenario's two records in the other
order: the incoming record has the strictly longer display name and empty
metadata, and the code keeps it — the version with non-empty metadata
`"Chairman"` is discarded, refuting "keeps the version with non-empty
metadata, preferring the longer display name on a tie". -/
theorem c7_longer_name_overrides_nonempty_metadata :
    dedupEntities [mukeshEnt, shriEnt] = [shriEnt] ∧
    shriEnt.metadata = [] ∧ mukeshEnt.metadata ≠ [] ∧
    isSameEntity shriEnt.id mukeshEnt.id = true := by
  refine ⟨by decide, rfl, by decide, by decide⟩

/-- C8's helper: every position of `[start, n)` lies in some produced
window span — windows are contiguous or overlapping because the next
start, `start + (chunkSize - overlap)`, never exceeds the current window
end `start + chunkSize`. -/
theorem chunkRanges_cover (W O n : Nat) :
    ∀ (fuel start : Nat) (ws : List (Nat × Nat)),
      chunkRangesFuel W O n fuel start = some ws →
      ∀ i : Nat, start ≤ i → i < n → ∃ p ∈ ws, p.1 ≤ i ∧ i < p.2 := by
  intro fuel
  induction fuel with
  | zero => intro start ws h; exact absurd h (by simp [chunkRangesFuel])
  | succ m ih =>
    intro start ws h i hsi hin
    rw [chunkRangesFuel] at h
    by_cases hs : start < n
    · rw [if_pos hs] at h
      cases hr : chunkRangesFuel W O n m (start + (W - O)) with
      | none => rw [hr] at h; exact absurd h (by simp)
      | some rest =>
        rw [hr] at h
        injection h with h'
        subst h'
        by_cases hiw : i < start + W
        · exact ⟨(start, min (start + W) n), List.mem_cons_self _ _, hsi, by omega⟩
        · have hnext : start + (W - O) ≤ i := by omega
          obtain ⟨p, hp, h1, h2⟩ := ih (start + (W - O)) rest hr i hnext hin
          exact ⟨p, List.mem_cons_of_mem _ hp, h1, h2⟩
    · rw [if_neg hs] at h
      omega
/-- C8's helper: with `overlap < chunkSize` the start advances by at least
one per window, so fuel exceeding the remaining length finishes the loop. -/
theorem chunkRanges_total (W O n : Nat) (hWO : O < W) :
    ∀ (fuel start : Nat), n - start < fuel → (chunkRangesFuel W O n fuel start).isSome := by
  intro fuel
  induction fuel with
  | zero => intro start h; omega
  | succ m ih =>
    intro start h
    rw [chunkRangesFuel]
    by_cases hs : start < n
    · rw [if_pos hs]
      have h2 : n - (start + (W - O)) < m := by omega
      have h3 := ih (start + (W - O)) h2
      cases hr : chunkRangesFuel W O n m (start + (W - O)) with
      | none => rw [hr] at h3; exact absurd h3 (by simp)
      | some rest => rfl
    · rw [if_neg hs]; rfl

/-- C8.  Segmenter coverage: with `overlap < chunkSize` every produced
window list covers `[0, L)` with no gap, segmentation finishes within
`L + 1` loop passes, and the spec's example `L = 9000`, `W = 4000`,
`O = 300` yields exactly the three window spans `[0,4000)`, `[3700,7700)`,
`[7400,9000)`. -/
theorem c8_segmenter_coverage :
    (∀ (n W O : Nat), O < W →
      ∀ (fuel start : Nat) (ws : List (Nat × Nat)),
        chunkRangesFuel W O n fuel start = some ws →
        ∀ i : Nat, start ≤ i → i < n → ∃ p ∈ ws, p.1 ≤ i ∧ i < p.2) ∧
    chunkRangesFuel 4000 300 9000 9001 0 = some [(0, 4000), (3700, 7700), (7400, 9000)] ∧
    (∀ (n W O : Nat), O < W → (chunkRangesFuel W O n (n + 1) 0).isSome) := by
  refine ⟨fun n W O _ => chunkRanges_cover W O n, by rfl,
    fun n W O h => chunkRanges_total W O n h (n + 1) 0 (by omega)⟩

/-- C8 witness: the coverage theorem applied to the spec's example with
the concrete position 8999, and the termination part at those sizes. -/
theorem c8_segmenter_coverage_witness :
    (∃ p ∈ [(0, 4000), (3700, 7700), (7400, 9000)], p.1 ≤ 8999 ∧ 8999 < p.2) ∧
    (chunkRangesFuel 4000 300 9000 9001 0).isSome := by
  constructor
  · exact c8_segmenter_coverage.1 9000 4000 300 (by decide) 9001 0 _
      c8_segmenter_coverage.2.1 8999 (by decide) (by decide)
  · rw [c8_segmenter_coverage.2.1]; rfl

/-- C10's helper: an early return from a fence branch is parse-validated. -/
theorem tryExtract_done (P : Str → Bool) (s0 : Str) (sc : Nat) (r : Str)
    (h : tryExtract P s0 sc = .done r) : P r = true := by
  unfold tryExtract at h
  cases hf : findSubFrom s0 (("```").toList) sc with
  | none => rw [hf] at h; exact FencePhase.noConfusion h
  | some em =>
    rw [hf] at h
    simp only at h
    split at h
    · injection h with h'
      subst h'
      assumption
    · exact FencePhase.noConfusion h

/-- C10's helper: an early return from the fence phase is parse-validated. -/
theorem fencePhase_done (P : Str → Bool) (s0 r : Str)
    (h : fencePhase P s0 = .done r) : P r = true := by
  unfold fencePhase at h
  split at h
  · exact FencePhase.noConfusion h
  · simp only at h
    split at h
    · split at h
      · exact FencePhase.noConfusion h
      · exact tryExtract_done _ _ _ _ h
    · split at h
      · exact FencePhase.noConfusion h
      · exact tryExtract_done _ _ _ _ h

/-- C10's helper: a first-brace-phase return is parse-validated. -/
theorem firstBracePhase_some (P : Str → Bool) (s r : Str)
    (h : firstBracePhase P s = some r) : P r = true := by
  unfold firstBracePhase at h
  split at h
  · exact Option.noConfusion h
  · split at h
    · exact Option.noConfusion h
    · simp only at h
      split at h
      · injection h with h'
        subst h'
        assumption
      · exact Option.noConfusion h

/-- C10's helper: the fallback scan only collects parse-validated
candidates. -/
theorem fallbackLoop_all_valid (P : Str → Bool) (s : Str) :
    ∀ (fuel searchStart : Nat) (acc cands : List Str),
      (∀ x ∈ acc, P x = true) →
      fallbackLoop P s fuel searchStart acc = some cands →
      ∀ x ∈ cands, P x = true := by
  intro fuel
  induction fuel with
  | zero => intro st acc cands _ h; exact absurd h (by simp [fallbackLoop])
  | succ m ih =>
    intro st acc cands hacc h
    rw [fallbackLoop] at h
    split at h
    · injection h with h'
      subst h'
      exact hacc
    · split at h
      · refine ih _ _ cands ?_ h
        intro x hx
        split at hx
        · rcases List.mem_append.mp hx with hx1 | hx2
          · exact hacc x hx1
          · rcases List.mem_singleton.mp hx2 with rfl
            assumption
        · exact hacc x hx
      · exact ih _ _ cands hacc h

/-- C10's helper: Python `max(..., key=len)` returns one of its inputs. -/
theorem maxByLen_mem (l : List Str) (m : Str) (h : maxByLen l = some m) : m ∈ l := by
  cases l with
  | nil => exact Option.noConfusion h
  | cons x xs =>
    injection h with h'
    subst h'
    have key : ∀ (ys : List Str) (b : Str),
        ys.foldl (fun best c => if best.length < c.length then c else best) b ∈ b :: ys := by
      intro ys
      induction ys with
      | nil => intro b; simp
      | cons y ys ihy =>
        intro b
        simp only [List.foldl_cons]
        rcases List.mem_cons.mp (ihy (if b.length < y.length then y else b)) with h1 | h1
        · rw [h1]
          by_cases hc : b.length < y.length <;> simp [hc]
        · simp [List.mem_cons.mpr (Or.inr (List.mem_cons.mpr (Or.inr h1)))]
    exact key xs x

/-- C10.  Whenever `clean_json_string` returns, the returned string is
either a candidate that was parse-validated (`P r = true`, i.e. the
`json.loads` inside `clean_json_string` succeeded on it) or the literal
default record; consequently, if the default record itself parses,
`json.loads` in `_process_single_chunk` succeeds on every cleaned reply,
so that function's `JSONDecodeError` fallback branch is unreachable. -/
theorem c10_clean_json_string_output_parses :
    ∀ (P : Str → Bool) (fuel : Nat) (s r : Str),
      cleanJsonString P fuel s = some r →
      (P r = true ∨ r = defaultRecord) ∧
      (P defaultRecord = true → P r = true) := by
  intro P fuel s r h
  have main : P r = true ∨ r = defaultRecord := by
    unfold cleanJsonString at h
    split at h
    · injection h with h'
      exact Or.inr h'.symm
    · split at h
      · rename_i r2 heq
        injection h with h'
        subst h'
        exact Or.inl (fencePhase_done P s _ heq)
      · rename_i s2 heq
        split at h
        · rename_i r2 hb
          injection h with h'
          subst h'
          exact Or.inl (firstBracePhase_some P s2 _ hb)
        · rename_i hb
          split at h
          · exact absurd h (by simp)
          · rename_i cands hl
            split at h
            · rename_i best hm
              injection h with h'
              subst h'
              exact Or.inl (fallbackLoop_all_valid P s2 fuel 0 [] cands
                (by simp) hl _ (maxByLen_mem cands _ hm))
            · injection h with h'
              exact Or.inr h'.symm
  exact ⟨main, fun hd => main.elim id fun he => he ▸ hd⟩

/-- C10 witness: the theorem applied at the empty reply with a concrete
parser, where the cleaner returns the default record. -/
theorem c10_clean_json_string_output_parses_witness :
    ((fun _ : Str => true) defaultRecord = true ∨ defaultRecord = defaultRecord) ∧
    ((fun _ : Str => true) defaultRecord = true → (fun _ : Str => true) defaultRecord = true) :=
  c10_clean_json_string_output_parses (fun _ => true) 1 [] defaultRecord (by rfl)

/-- C9 counterexample.  With a repeated multi-character token the
equal-length branch of `_is_same_entity` tests containment in one
direction only: `"ab ab cd x"` vs `"ab cd ef y"` answers `True`, the
swapped pair answers `False`, so the test is not symmetric. -/
theorem c9_is_same_entity_asymmetric_on_duplicate_tokens :
    isSameEntity (("ab ab cd x").toList) (("ab cd ef y").toList) = true ∧
    isSameEntity (("ab cd ef y").toList) (("ab ab cd x").toList) = false := by
  exact ⟨by decide, by decide⟩

/-- Helper: the `all ... in ...` test as a membership statement. -/
theorem subsetB_iff (xs ys : List Str) : subsetB xs ys = true ↔ ∀ x ∈ xs, x ∈ ys := by
  simp [subsetB, List.all_eq_true]

/-- Helper: Python set equality is symmetric. -/
theorem setEqB_flip (xs ys : List Str) (h : setEqB xs ys = true) : setEqB ys xs = true := by
  simp only [setEqB, Bool.and_eq_true] at h ⊢
  exact ⟨h.2, h.1⟩

/-- Helper: a duplicate-free list contained in a list of no greater length
contains it back (pigeonhole via subpermutations). -/
theorem subsetB_flip_of_nodup (xs ys : List Str) (hnd : xs.Nodup)
    (hsub : subsetB xs ys = true) (hlen : ys.length ≤ xs.length) :
    subsetB ys xs = true := by
  rw [subsetB_iff] at hsub ⊢
  have hsp : List.Subperm xs ys := hnd.subperm fun a ha => hsub a ha
  have hperm : xs.Perm ys := hsp.perm_of_length_le hlen
  intro b hb
  exact hperm.mem_iff.mpr hb

/-- C9's helper: a `True` answer of the equivalence body transfers to the
swapped pair when both filtered core-token lists are duplicate-free (the
only asymmetric check is the equal-length core containment, and with
duplicate-free lists that case collapses to set equality). -/
theorem isSameNorm_true_symm (n1 n2 : Str)
    (h1 : (coreOf n1).Nodup) (h2 : (coreOf n2).Nodup)
    (h : isSameNorm n1 n2 = true) : isSameNorm n2 n1 = true := by
  simp only [isSameNorm, Bool.or_eq_true, Bool.and_eq_true, decide_eq_true_eq] at h ⊢
  rcases h with (((h | ⟨⟨hl1, hl2⟩, hc⟩) | ⟨⟨hw1, hw2⟩, hw⟩) | h) | h
  · exact Or.inl (Or.inl (Or.inl (Or.inl h.symm)))
  · refine Or.inl (Or.inl (Or.inl (Or.inr ⟨⟨hl2, hl1⟩, ?_⟩)))
    rcases hc with hset | hif
    · exact Or.inl (setEqB_flip _ _ hset)
    · by_cases hle : (coreOf n1).length ≤ (coreOf n2).length
      · rw [if_pos hle] at hif
        by_cases hge : (coreOf n2).length ≤ (coreOf n1).length
        · refine Or.inl ?_
          simp only [setEqB, Bool.and_eq_true]
          exact ⟨subsetB_flip_of_nodup _ _ h1 hif hge, hif⟩
        · refine Or.inr ?_
          rw [if_neg hge]
          exact hif
      · rw [if_neg hle] at hif
        have hge : (coreOf n2).length ≤ (coreOf n1).length := by omega
        refine Or.inr ?_
        rw [if_pos hge]
        exact hif
  · exact Or.inl (Or.inl (Or.inr ⟨⟨hw2, hw1⟩, hw.symm⟩))
  · exact Or.inr h
  · exact Or.inl (Or.inr h)

/-- C9 (amended).  The identity equivalence test is symmetric on every
pair of names whose normalized core-token lists (split tokens longer than
one character) are duplicate-free; the counterexample's repeated token
`"ab"` is exactly what the amendment excludes. -/
theorem c9_is_same_entity_symmetric_on_nodup_tokens :
    ∀ a b : Str,
      (coreOf (normalizeName a)).Nodup → (coreOf (normalizeName b)).Nodup →
      isSameEntity a b = isSameEntity b a := by
  intro a b h1 h2
  unfold isSameEntity
  cases hab : isSameNorm (normalizeName a) (normalizeName b) with
  | false =>
    cases hba : isSameNorm (normalizeName b) (normalizeName a) with
    | false => rfl
    | true =>
      have hcontra := isSameNorm_true_symm _ _ h2 h1 hba
      rw [hab] at hcontra
      exact hcontra
  | true => exact (isSameNorm_true_symm _ _ h1 h2 hab).symm

/-- C9 witness: the amended symmetry applied to the scenario name pair,
whose core tokens are duplicate-free. -/
theorem c9_symmetry_witness :
    isSameEntity (("Mukesh Ambani").toList) (("Shri Mukesh D. Ambani").toList)
      = isSameEntity (("Shri Mukesh D. Ambani").toList) (("Mukesh Ambani").toList) :=
  c9_is_same_entity_symmetric_on_nodup_tokens _ _ (by decide) (by decide)

/-- C7 (amended).  The merge decision rule the code actually implements:
for two records matching under identity equivalence, the incoming record
replaces the stored one iff its display name is strictly longer, or its
metadata is strictly longer and non-empty — the longer display name wins
outright, metadata only breaks the not-longer-name case.  In the spec's
scenario order (longer empty-metadata record first) the merged entity does
carry the non-empty metadata `"Chairman"`. -/
theorem c7_merge_decision_rule :
    (∀ e1 e2 : Entity, e1.id ≠ [] → e2.id ≠ [] → isSameEntity e2.id e1.id = true →
        dedupEntities [e1, e2] =
          [if e1.id.length < e2.id.length ∨
              (e1.metadata.length < e2.metadata.length ∧ e2.metadata ≠ []) then e2 else e1]) ∧
    dedupEntities [shriEnt, mukeshEnt] = [mukeshEnt] := by
  constructor
  · intro e1 e2 h1 h2 hs
    by_cases hc : e1.id.length < e2.id.length ∨
        (e1.metadata.length < e2.metadata.length ∧ e2.metadata ≠ [])
    · by_cases hlen : e1.id.length < e2.id.length
      · simp [dedupEntities, dedupStep, hs, h1, h2, hc, hlen, findMatch, dictSet, dictDel]
      · have hb := hc.resolve_left hlen
        simp [dedupEntities, dedupStep, hs, h1, h2, hlen, hb, findMatch, dictSet, dictDel]
    · simp [dedupEntities, dedupStep, hs, h1, h2, hc, findMatch, dictSet, dictDel]
  · decide

/-- C7 witness: the decision rule applied to the counterexample order —
the incoming longer-name record replaces the stored one. -/
theorem c7_merge_decision_rule_witness :
    dedupEntities [mukeshEnt, shriEnt] =
      [if mukeshEnt.id.length < shriEnt.id.length ∨
          (mukeshEnt.metadata.length < shriEnt.metadata.length ∧ shriEnt.metadata ≠ []) then
        shriEnt
       else mukeshEnt] :=
  c7_merge_decision_rule.1 mukeshEnt shriEnt (by decide) (by decide) (by decide)

/-- C6 (amended).  The relation type shape validation actually enforces:
every surviving financial relationship has source type `Company` and a
target type outside the rejected list (so `Dollar Amount`, `Metric`,
`Unknown`, or an unresolved endpoint's `default` — not necessarily
`Dollar Amount`); every surviving `OWNS` relationship has source and
target type `Company`; every surviving `FACES_RISK` relationship has
source type `Company`. -/
theorem c6_validated_relationship_type_shape :
    ∀ (emap : List (Str × Entity)) (rels : List Rel) (r : Rel),
      r ∈ validateAndFixRelationships rels emap →
      (relUpperOf r ∈ financialRelations →
          lookupType emap r.source = ("Company").toList ∧
          lookupType emap r.target ∉ invalidTargetTypes) ∧
      (relUpperOf r = ("OWNS").toList →
          lookupType emap r.source = ("Company").toList ∧
          lookupType emap r.target = ("Company").toList) ∧
      (relUpperOf r = ("FACES_RISK").toList →
          lookupType emap r.source = ("Company").toList) := by
  intro emap rels r hmem
  simp only [validateAndFixRelationships, List.mem_filterMap] at hmem
  obtain ⟨a, _, hv⟩ := hmem
  unfold validateOne at hv
  by_cases h0 : a.source = [] ∨ a.target = []
  · rw [if_pos h0] at hv
    exact absurd hv (by simp)
  · rw [if_neg h0] at hv
    simp only at hv
    by_cases hfin : relUpperOf a ∈ financialRelations
    · rw [if_pos hfin] at hv
      by_cases htgt : lookupType emap a.target ∈ invalidTargetTypes
      · rw [if_pos htgt] at hv
        exact absurd hv (by simp)
      · rw [if_neg htgt] at hv
        by_cases hswap : lookupType emap a.target = ("Company").toList ∧
            lookupType emap a.source = ("Dollar Amount").toList
        · exact absurd (hswap.1 ▸ htgt) (by simp [invalidTargetTypes])
        · rw [if_neg hswap] at hv
          by_cases hsi : lookupType emap a.source ∈ invalidSourceTypes
          · rw [if_pos hsi] at hv
            exact absurd hv (by simp)
          · rw [if_neg hsi] at hv
            by_cases hsc : lookupType emap a.source = ("Company").toList
            · rw [if_neg (not_not_intro hsc)] at hv
              simp only at hv
              have hnfr : ¬(relUpperOf a = ("FACES_RISK").toList ∧
                  ¬lookupType emap a.source = ("Company").toList) := by
                intro hx
                exact hx.2 hsc
              rw [if_neg hnfr] at hv
              by_cases howns : relUpperOf a = ("OWNS").toList
              · exact absurd (howns ▸ hfin) (by decide)
              · rw [if_neg howns] at hv
                injection hv with hv'
                subst hv'
                refine ⟨fun _ => ⟨hsc, htgt⟩, fun hx => absurd hx howns, fun _ => hsc⟩
            · rw [if_pos hsc] at hv
              exact absurd hv (by simp)
    · rw [if_neg hfin] at hv
      simp only at hv
      by_cases hfr : relUpperOf a = ("FACES_RISK").toList ∧
          ¬lookupType emap a.source = ("Company").toList
      · rw [if_pos hfr] at hv
        exact absurd hv (by simp)
      · rw [if_neg hfr] at hv
        by_cases howns : relUpperOf a = ("OWNS").toList
        · rw [if_pos howns] at hv
          by_cases hsc : lookupType emap a.source = ("Company").toList
          · rw [if_neg (not_not_intro hsc)] at hv
            by_cases htc : lookupType emap a.target = ("Company").toList
            · rw [if_neg (not_not_intro htc)] at hv
              injection hv with hv'
              subst hv'
              exact ⟨fun hx => absurd hx hfin, fun _ => ⟨hsc, htc⟩,
                fun hx => absurd (hx ▸ howns) (by decide)⟩
            · rw [if_pos htc] at hv
              exact absurd hv (by simp)
          · rw [if_pos hsc] at hv
            exact absurd hv (by simp)
        · rw [if_neg howns] at hv
          injection hv with hv'
          subst hv'
          refine ⟨fun hx => absurd hx hfin, fun hx => absurd hx howns, fun hx => ?_⟩
          rcases not_and_or.mp hfr with h | h
          · exact absurd hx h
          · exact not_not.mp h

/-- C6 witness: the shape theorem applied to a concrete validated list —
a correctly-directed financial relationship kept by the validator. -/
theorem c6_validated_relationship_type_shape_witness :
    (relUpperOf repairedProfitRel ∈ financialRelations →
        lookupType emapScenario repairedProfitRel.source = ("Company").toList ∧
        lookupType emapScenario repairedProfitRel.target ∉ invalidTargetTypes) ∧
    (relUpperOf repairedProfitRel = ("OWNS").toList →
        lookupType emapScenario repairedProfitRel.source = ("Company").toList ∧
        lookupType emapScenario repairedProfitRel.target = ("Company").toList) ∧
    (relUpperOf repairedProfitRel = ("FACES_RISK").toList →
        lookupType emapScenario repairedProfitRel.source = ("Company").toList) :=
  c6_validated_relationship_type_shape emapScenario [repairedProfitRel]
    repairedProfitRel (by decide)

/-- Helper: setting any key preserves presence of every present key. -/
theorem dictGet_isSome_dictSet {α : Type} (m : List (Str × α)) (k k2 : Str) (v : α)
    (h : (dictGet m k).isSome) : (dictGet (dictSet m k2 v) k).isSome := by
  induction m with
  | nil => simp [dictGet] at h
  | cons p rest ih =>
    by_cases h1 : p.1 = k2
    · by_cases h2 : p.1 = k
      · simp [dictSet, dictGet, h1, h1 ▸ h2]
      · rw [dictGet, if_neg h2] at h
        simp [dictSet, dictGet, h1, h1 ▸ h2, h]
    · by_cases h2 : p.1 = k
      · have h3 : ¬k = k2 := h2 ▸ h1
        simp [dictSet, dictGet, h1, h2, h3]
      · rw [dictGet, if_neg h2] at h
        simp [dictSet, dictGet, h1, h2, ih h]

/-- Helper: a key just set is present. -/
theorem dictGet_dictSet_self {α : Type} (m : List (Str × α)) (k : Str) (v : α) :
    (dictGet (dictSet m k v) k).isSome := by
  induction m with
  | nil => simp [dictSet, dictGet]
  | cons p rest ih =>
    by_cases h1 : p.1 = k
    · simp [dictSet, dictGet, h1]
    · simp [dictSet, dictGet, h1, ih]

/-- C5's helper: the visualizer's edge step preserves "every recorded edge
has both endpoints present as nodes", because missing endpoints are
synthesized before the edge is appended and node insertion never removes
a key. -/
theorem visStep_preserves (st : List (Str × Str) × List (Str × Str × Str)) (rel : Rel)
    (h : ∀ e ∈ st.2, (dictGet st.1 e.1).isSome ∧ (dictGet st.1 e.2.1).isSome) :
    ∀ e ∈ (visStep st rel).2,
      (dictGet (visStep st rel).1 e.1).isSome ∧ (dictGet (visStep st rel).1 e.2.1).isSome := by
  unfold visStep
  by_cases h0 : rel.source = [] ∨ rel.target = []
  · rw [if_pos h0]
    exact h
  · rw [if_neg h0]
    simp only
    intro e he
    have mono1 : ∀ q : Str, (dictGet st.1 q).isSome →
        (dictGet (if (dictGet st.1 rel.source).isSome then st.1
                  else dictSet st.1 rel.source (("default").toList)) q).isSome := by
      intro q hq
      split
      · exact hq
      · exact dictGet_isSome_dictSet _ _ _ _ hq
    have hsrc1 : (dictGet (if (dictGet st.1 rel.source).isSome then st.1
        else dictSet st.1 rel.source (("default").toList)) rel.source).isSome := by
      split
      · assumption
      · exact dictGet_dictSet_self _ _ _
    have mono2 : ∀ (n1 : List (Str × Str)) (q : Str), (dictGet n1 q).isSome →
        (dictGet (if (dictGet n1 rel.target).isSome then n1
                  else dictSet n1 rel.target (("default").toList)) q).isSome := by
      intro n1 q hq
      split
      · exact hq
      · exact dictGet_isSome_dictSet _ _ _ _ hq
    have htgt2 : ∀ n1 : List (Str × Str),
        (dictGet (if (dictGet n1 rel.target).isSome then n1
                  else dictSet n1 rel.target (("default").toList)) rel.target).isSome := by
      intro n1
      split
      · assumption
      · exact dictGet_dictSet_self _ _ _
    rcases List.mem_append.mp he with hold | hnew
    · obtain ⟨hs, ht⟩ := h e hold
      exact ⟨mono2 _ _ (mono1 _ hs), mono2 _ _ (mono1 _ ht)⟩
    · rcases List.mem_singleton.mp hnew with rfl
      exact ⟨mono2 _ _ hsrc1, htgt2 _⟩

/-- C5 (amended).  The no-dangling-endpoint guarantee holds of the graph
built by the downstream visualizer, not of `analyze`'s return value: in
`GraphVisualizer.create_graph` every recorded edge's source and target are
present as nodes, with missing endpoints synthesized as `"default"`-typed
(not `Unknown`) stub nodes. -/
theorem c5_visualizer_synthesizes_missing_endpoint_nodes :
    ∀ (data : Graph) (e : Str × Str × Str),
      e ∈ (buildVisGraph data).2 →
      (dictGet (buildVisGraph data).1 e.1).isSome ∧
      (dictGet (buildVisGraph data).1 e.2.1).isSome := by
  intro data
  have key : ∀ (rels : List Rel) (st : List (Str × Str) × List (Str × Str × Str)),
      (∀ e ∈ st.2, (dictGet st.1 e.1).isSome ∧ (dictGet st.1 e.2.1).isSome) →
      ∀ e ∈ (rels.foldl visStep st).2,
        (dictGet ((rels.foldl visStep st).1) e.1).isSome ∧
        (dictGet ((rels.foldl visStep st).1) e.2.1).isSome := by
    intro rels
    induction rels with
    | nil => intro st h; exact h
    | cons rel rest ih =>
      intro st h
      exact ih (visStep st rel) (visStep_preserves st rel h)
  exact key data.relationships (buildNodes data.entities, []) (by simp)

/-- C5 witness: the visualizer theorem applied to the mock graph's edge
whose target `"10B"` is not among the entities — both endpoints are nodes
of the rendered graph. -/
theorem c5_visualizer_witness :
    (dictGet (buildVisGraph mockGraph).1 (("RIL").toList)).isSome ∧
    (dictGet (buildVisGraph mockGraph).1 (("10B").toList)).isSome :=
  c5_visualizer_synthesizes_missing_endpoint_nodes mockGraph
    ((("RIL").toList), (("10B").toList), (("REVENUE").toList)) (by decide)

end FinDetective
